import Mathlib

/-!
# Verification of the `Evaluation` response-model decoder

Shallow embedding of `src/battery/types/evaluation.py`: the three record
types `Evaluations`, `Usage`, `Evaluation` are translated field by field
from the source declarations.  The decode operation itself lives in the
library's `BaseModel` (not part of the provided sources), so it is
modelled from the specification's decoder contract (§4.1/§7 of the spec).
-/

namespace Battery

/-- A JSON value, as delivered in the body of an HTTP response.
Numbers are modelled as integers (all payloads in scope carry integers). -/
inductive Json where
  | null : Json
  | bool (b : Bool) : Json
  | num (n : Int) : Json
  | str (s : String) : Json
  | arr (elems : List Json) : Json
  | obj (fields : List (String × Json)) : Json
deriving Repr

/-- Look up a field of a JSON object (first binding wins). -/
def lookupField (fs : List (String × Json)) (k : String) : Option Json :=
  (fs.find? (fun p => p.1 == k)).map Prod.snd

def Json.isNum : Json → Bool
  | .num _ => true
  | _ => false

def Json.isStr : Json → Bool
  | .str _ => true
  | _ => false

/-- Extract the integer of a numeric JSON value (default 0 elsewhere). -/
def Json.toIntD : Json → Int
  | .num n => n
  | _ => 0

/-- Extract the string of a string JSON value (default "" elsewhere). -/
def Json.toStrD : Json → String
  | .str s => s
  | _ => ""

/-- The value of the `critique` field of `Evaluations`.  Source type:
`Union[str, float, List[int], List[str], object]` — a string, a number,
a list of integers, a list of strings, or any other JSON value kept
as an opaque (`other`) representation. -/
inductive Critique where
  | str (s : String) : Critique
  | num (n : Int) : Critique
  | intList (ns : List Int) : Critique
  | strList (ss : List String) : Critique
  | other (j : Json) : Critique
deriving Repr

/-- Source `class Evaluations(BaseModel)`: per-metric sub-result. -/
structure Evaluations where
  critique : Critique
  score : Int
deriving Repr

/-- Source `class Usage(BaseModel)`: token accounting. -/
structure Usage where
  evaluation_tokens : Int
  prompt_tokens : Int
  total_tokens : Int
deriving Repr

/-- Source `class Evaluation(BaseModel)`: root response object.  `evaluations`
is `Dict[str, Evaluations]`, modelled as an association list; `id` and
`created` are `Optional` with default `None`. -/
structure Evaluation where
  evaluations : List (String × Evaluations)
  model : String
  usage : Usage
  id : Option String := none
  created : Option Int := none
deriving Repr

/-- Modelled from the spec: the single error kind `SchemaValidationError`,
raised when a required field is missing or fails type coercion (§7). -/
inductive SchemaValidationError where
  | missingField (name : String) : SchemaValidationError
  | wrongType (name : String) : SchemaValidationError
deriving Repr

/-- Modelled from the spec: decoding of the `critique` union.  The decoder
accepts any of the listed shapes (string, number, list of ints, list of
strings) and otherwise falls back to the opaque representation rather than
failing (§4.1). -/
def decodeCritique : Json → Critique
  | .str s => .str s
  | .num n => .num n
  | .arr xs =>
      if xs.all Json.isNum then .intList (xs.map Json.toIntD)
      else if xs.all Json.isStr then .strList (xs.map Json.toStrD)
      else .other (.arr xs)
  | j => .other j

/-- Modelled from the spec: decoding one `Evaluations` value — the required
fields `critique` (any shape) and `score` (integer) must be present. -/
def decodeEvaluations (j : Json) : Except SchemaValidationError Evaluations :=
  match j with
  | .obj fs =>
    match lookupField fs "critique" with
    | none => .error (.missingField "critique")
    | some cj =>
      match lookupField fs "score" with
      | none => .error (.missingField "score")
      | some (.num n) => .ok ⟨decodeCritique cj, n⟩
      | some _ => .error (.wrongType "score")
  | _ => .error (.wrongType "evaluations entry")

/-- Modelled from the spec: decoding the entries of the `evaluations` map,
key by key. -/
def decodeEntries : List (String × Json) → Except SchemaValidationError (List (String × Evaluations))
  | [] => .ok []
  | (k, v) :: rest =>
    match decodeEvaluations v with
    | .error e => .error e
    | .ok ev =>
      match decodeEntries rest with
      | .error e => .error e
      | .ok tail => .ok ((k, ev) :: tail)

/-- Modelled from the spec: decoding `Usage` — three required integers. -/
def decodeUsage (j : Json) : Except SchemaValidationError Usage :=
  match j with
  | .obj fs =>
    match lookupField fs "evaluation_tokens" with
    | some (.num e) =>
      match lookupField fs "prompt_tokens" with
      | some (.num p) =>
        match lookupField fs "total_tokens" with
        | some (.num t) => .ok ⟨e, p, t⟩
        | some _ => .error (.wrongType "total_tokens")
        | none => .error (.missingField "total_tokens")
      | some _ => .error (.wrongType "prompt_tokens")
      | none => .error (.missingField "prompt_tokens")
    | some _ => .error (.wrongType "evaluation_tokens")
    | none => .error (.missingField "evaluation_tokens")
  | _ => .error (.wrongType "usage")

/-- Modelled from the spec: an optional string field — absent or `null`
defaults to unset, a string is kept, anything else fails coercion. -/
def decodeOptStr (k : String) : Option Json → Except SchemaValidationError (Option String)
  | none => .ok none
  | some .null => .ok none
  | some (.str s) => .ok (some s)
  | some _ => .error (.wrongType k)

/-- Modelled from the spec: an optional integer field — absent or `null`
defaults to unset, an integer is kept, anything else fails coercion. -/
def decodeOptInt (k : String) : Option Json → Except SchemaValidationError (Option Int)
  | none => .ok none
  | some .null => .ok none
  | some (.num n) => .ok (some n)
  | some _ => .error (.wrongType k)

/-- Modelled from the spec: the Response Model Decoder (§4.1).  Given a raw
decoded JSON object, produce a populated `Evaluation`: required fields
(`evaluations`, `model`, `usage`) absent or wrong-typed fail with a
`SchemaValidationError`; optional fields (`id`, `created`) default to
unset; unknown extra fields are ignored. -/
def decodeEvaluation (j : Json) : Except SchemaValidationError Evaluation :=
  match j with
  | .obj fs =>
    match lookupField fs "evaluations" with
    | none => .error (.missingField "evaluations")
    | some (.obj evfs) =>
      match decodeEntries evfs with
      | .error e => .error e
      | .ok evs =>
        match lookupField fs "model" with
        | none => .error (.missingField "model")
        | some (.str m) =>
          match lookupField fs "usage" with
          | none => .error (.missingField "usage")
          | some uj =>
            match decodeUsage uj with
            | .error e => .error e
            | .ok u =>
              match decodeOptStr "id" (lookupField fs "id") with
              | .error e => .error e
              | .ok oid =>
                match decodeOptInt "created" (lookupField fs "created") with
                | .error e => .error e
                | .ok ocr => .ok ⟨evs, m, u, oid, ocr⟩
        | some _ => .error (.wrongType "model")
    | some _ => .error (.wrongType "evaluations")
  | _ => .error (.wrongType "payload")

/-- Re-encode a `Critique` back to JSON. -/
def encodeCritique : Critique → Json
  | .str s => .str s
  | .num n => .num n
  | .intList ns => .arr (ns.map Json.num)
  | .strList ss => .arr (ss.map Json.str)
  | .other j => j

/-- Re-encode an `Evaluations` value back to JSON. -/
def encodeEvaluations (ev : Evaluations) : Json :=
  .obj [("critique", encodeCritique ev.critique), ("score", .num ev.score)]

/-- Re-encode a `Usage` value back to JSON. -/
def encodeUsage (u : Usage) : Json :=
  .obj [("evaluation_tokens", .num u.evaluation_tokens),
        ("prompt_tokens", .num u.prompt_tokens),
        ("total_tokens", .num u.total_tokens)]

/-- Re-encode an `Evaluation` back to JSON, emitting every known field;
unset optional fields are omitted. -/
def encodeEvaluation (e : Evaluation) : Json :=
  .obj ([("evaluations", .obj (e.evaluations.map (fun p => (p.1, encodeEvaluations p.2)))),
         ("model", .str e.model),
         ("usage", encodeUsage e.usage)]
    ++ (match e.id with | some s => [("id", .str s)] | none => [])
    ++ (match e.created with | some n => [("created", .num n)] | none => []))

/-- A `critique` value of one of the shapes explicitly listed in the union
(`str`, number, `List[int]`, `List[str]`). -/
def critiqueListed : Json → Bool
  | .str _ => true
  | .num _ => true
  | .arr xs => xs.all Json.isNum || xs.all Json.isStr
  | _ => false

/-- Does the object field `k` exist and satisfy the shape test `p`? -/
def fieldHasShape (fs : List (String × Json)) (k : String) (p : Json → Bool) : Bool :=
  match lookupField fs k with
  | some v => p v
  | none => false

/-- One of the five field names the `Evaluation` model declares. -/
def knownKey (k : String) : Bool :=
  k == "evaluations" || k == "model" || k == "usage" || k == "id" || k == "created"

/-- A JSON value acceptable for the `usage` field: an object carrying the
three integer token counts. -/
def usageOk (j : Json) : Bool :=
  match j with
  | .obj fs =>
    (match lookupField fs "evaluation_tokens" with | some (.num _) => true | _ => false) &&
    (match lookupField fs "prompt_tokens" with | some (.num _) => true | _ => false) &&
    (match lookupField fs "total_tokens" with | some (.num _) => true | _ => false)
  | _ => false

/-- A JSON value acceptable as one `evaluations` entry: an object with a
`critique` field of any shape and an integer `score`. -/
def entryOk (j : Json) : Bool :=
  match j with
  | .obj fs =>
    (lookupField fs "critique").isSome &&
    (match lookupField fs "score" with | some (.num _) => true | _ => false)
  | _ => false

/-- The required part of a payload is valid with respect to the §3 data
model: `evaluations` an object of valid entries, `model` a string,
`usage` a valid token-count object. -/
def requiredOk (fs : List (String × Json)) : Bool :=
  (match lookupField fs "evaluations" with
   | some (.obj evfs) => evfs.all (fun p => entryOk p.2)
   | _ => false) &&
  (match lookupField fs "model" with | some (.str _) => true | _ => false) &&
  (match lookupField fs "usage" with | some u => usageOk u | _ => false)

def Json.isObj : Json → Bool
  | .obj _ => true
  | _ => false

/-- The fields of the example payload of spec §8. -/
def exampleFields : List (String × Json) :=
  [("evaluations", .obj [("recall", .obj [("score", .num 3), ("critique", .str "ok")])]),
   ("model", .str "m1"),
   ("usage", .obj [("evaluation_tokens", .num 10), ("prompt_tokens", .num 5),
                   ("total_tokens", .num 15)])]

/-- The example payload of spec §8. -/
def examplePayload : Json := .obj exampleFields

/-- The `Evaluation` the example payload decodes to. -/
def exampleEvaluation : Evaluation :=
  { evaluations := [("recall", { critique := .str "ok", score := 3 })],
    model := "m1",
    usage := { evaluation_tokens := 10, prompt_tokens := 5, total_tokens := 15 },
    id := none,
    created := none }

/-- The example payload with the `usage` token counts replaced by `(e, p, t)`. -/
def payloadWithUsage (e p t : Int) : Json :=
  .obj [("evaluations", .obj [("recall", .obj [("score", .num 3), ("critique", .str "ok")])]),
        ("model", .str "m1"),
        ("usage", .obj [("evaluation_tokens", .num e), ("prompt_tokens", .num p),
                        ("total_tokens", .num t)])]

/-! ## Basic lemmas -/

theorem isStr_exists {j : Json} (h : j.isStr = true) : ∃ s, j = .str s := by
  cases j <;> simp [Json.isStr] at h ⊢

theorem isNum_exists {j : Json} (h : j.isNum = true) : ∃ n, j = .num n := by
  cases j <;> simp [Json.isNum] at h ⊢

theorem isObj_exists {j : Json} (h : j.isObj = true) : ∃ fs, j = .obj fs := by
  cases j <;> simp [Json.isObj] at h ⊢

/-- Appending a binding for a different key does not change a field lookup. -/
theorem lookupField_append_ne (fs : List (String × Json)) (k : String) (v : Json)
    (key : String) (hne : (k == key) = false) :
    lookupField (fs ++ [(k, v)]) key = lookupField fs key := by
  induction fs with
  | nil => simp [lookupField, List.find?, hne]
  | cons p rest ih =>
    by_cases hp : (p.1 == key) = true
    · simp [lookupField, List.find?, hp]
    · simp only [Bool.not_eq_true] at hp
      simp only [lookupField, List.cons_append, List.find?, hp] at ih ⊢
      exact ih

/-- A non-object never decodes as `Usage`. -/
theorem decodeUsage_ok_isObj {uj : Json} {u : Usage} (h : decodeUsage uj = .ok u) :
    uj.isObj = true := by
  cases uj <;> simp [decodeUsage, Json.isObj] at h ⊢

/-- Inversion: a successful decode pins every field of the payload. -/
theorem decodeEvaluation_ok_inv {fs : List (String × Json)} {e : Evaluation}
    (h : decodeEvaluation (.obj fs) = .ok e) :
    ∃ evfs, lookupField fs "evaluations" = some (.obj evfs) ∧
      decodeEntries evfs = .ok e.evaluations ∧
      lookupField fs "model" = some (.str e.model) ∧
      (∃ uj, lookupField fs "usage" = some uj ∧ decodeUsage uj = .ok e.usage) ∧
      decodeOptStr "id" (lookupField fs "id") = .ok e.id ∧
      decodeOptInt "created" (lookupField fs "created") = .ok e.created := by
  simp only [decodeEvaluation] at h
  split at h <;> try exact Except.noConfusion h
  rename_i evfs heqev
  split at h <;> try exact Except.noConfusion h
  rename_i evs heqentries
  split at h <;> try exact Except.noConfusion h
  rename_i m heqm
  split at h <;> try exact Except.noConfusion h
  rename_i uj hequ
  split at h <;> try exact Except.noConfusion h
  rename_i u hequsage
  split at h <;> try exact Except.noConfusion h
  rename_i oid heqid
  split at h <;> try exact Except.noConfusion h
  rename_i ocr heqcr
  cases h
  exact ⟨evfs, heqev, heqentries, heqm, ⟨uj, hequ, hequsage⟩, heqid, heqcr⟩

/-! ## Claim theorems -/

/-- C6: Decoding the concrete example payload succeeds and yields an
`Evaluation` whose `model` is `"m1"`, whose `usage.total_tokens` is `15`,
and whose `id` is `none`. -/
theorem decode_example_payload :
    ∃ e, decodeEvaluation examplePayload = .ok e ∧
      e.model = "m1" ∧ e.usage.total_tokens = 15 ∧ e.id = none :=
  ⟨exampleEvaluation, rfl, rfl, rfl, rfl⟩

/-- C7: The range [1,5] for `score` is not enforced: for every integer `n`
(and any critique value), decoding an otherwise-valid `Evaluations` object
with `score = n` succeeds and the resulting `score` equals `n`. -/
theorem score_range_not_enforced (n : Int) (cj : Json) :
    ∃ ev, decodeEvaluations (.obj [("critique", cj), ("score", .num n)]) = .ok ev ∧
      ev.score = n :=
  ⟨⟨decodeCritique cj, n⟩, rfl, rfl⟩

/-- C8: `total_tokens = evaluation_tokens + prompt_tokens` is not verified
locally: for every triple of integers `(e, p, t)` — also when `t ≠ e + p` —
decoding an otherwise-valid payload whose `usage` carries those values
succeeds and the resulting `Usage` holds exactly those values. -/
theorem usage_sum_not_verified (e p t : Int) :
    ∃ ev, decodeEvaluation (payloadWithUsage e p t) = .ok ev ∧
      ev.usage = ⟨e, p, t⟩ :=
  ⟨⟨[("recall", ⟨.str "ok", 3⟩)], "m1", ⟨e, p, t⟩, none, none⟩, rfl, rfl⟩

/-- Witness for C7: a score of 7 (outside [1,5]) is accepted verbatim. -/
theorem score_range_not_enforced_witness :
    ∃ ev, decodeEvaluations (.obj [("critique", .str "ok"), ("score", .num 7)]) = .ok ev ∧
      ev.score = 7 :=
  score_range_not_enforced 7 (.str "ok")

/-- Witness for C8: a usage of (10, 5, 999) with 999 ≠ 10 + 5 is accepted
verbatim. -/
theorem usage_sum_not_verified_witness :
    ∃ ev, decodeEvaluation (payloadWithUsage 10 5 999) = .ok ev ∧
      ev.usage = ⟨10, 5, 999⟩ :=
  usage_sum_not_verified 10 5 999

/-- C9: Decoding is deterministic and side-effect free: it is a pure
function of the payload, so equal payloads give equal results (both
succeed with equal values or both fail with the same error). -/
theorem decode_deterministic (j₁ j₂ : Json) (h : j₁ = j₂) :
    decodeEvaluation j₁ = decodeEvaluation j₂ := by
  rw [h]

/-- Witness for C9 at the example payload. -/
theorem decode_deterministic_witness :
    examplePayload = examplePayload ∧
      decodeEvaluation examplePayload = decodeEvaluation examplePayload :=
  ⟨rfl, decode_deterministic examplePayload examplePayload rfl⟩

/-- C2: Every JSON value supplied for `critique` decodes successfully, and
any value outside the listed union shapes is kept as the opaque
representation rather than failing. -/
theorem critique_union_tolerant (cj : Json) (n : Int) :
    (∃ ev, decodeEvaluations (.obj [("critique", cj), ("score", .num n)]) = .ok ev ∧
      ev.critique = decodeCritique cj) ∧
    (critiqueListed cj = false → decodeCritique cj = .other cj) := by
  refine ⟨⟨⟨decodeCritique cj, n⟩, rfl, rfl⟩, fun h => ?_⟩
  cases cj with
  | str s => simp [critiqueListed] at h
  | num m => simp [critiqueListed] at h
  | arr xs =>
    simp only [critiqueListed, Bool.or_eq_false_iff] at h
    simp [decodeCritique, h.1, h.2]
  | null => rfl
  | bool b => rfl
  | obj fs => rfl

/-- Witness for C2 at a boolean critique (not a listed shape). -/
theorem critique_union_tolerant_witness :
    critiqueListed (.bool true) = false ∧
      decodeCritique (.bool true) = .other (.bool true) ∧
      (∃ ev, decodeEvaluations (.obj [("critique", .bool true), ("score", .num 2)]) = .ok ev ∧
        ev.critique = decodeCritique (.bool true)) :=
  ⟨rfl, (critique_union_tolerant (.bool true) 2).2 rfl,
    (critique_union_tolerant (.bool true) 2).1⟩

/-- C1: Whenever a required field (`evaluations`, `model`, `usage`) is
absent or has the wrong top-level type — in particular when `model` is
missing — decoding fails with a `SchemaValidationError`, and no such
payload decodes successfully. -/
theorem required_field_failure (j : Json)
    (hbad : ∀ fs, j = Json.obj fs →
      fieldHasShape fs "evaluations" Json.isObj = false ∨
      fieldHasShape fs "model" Json.isStr = false ∨
      fieldHasShape fs "usage" Json.isObj = false) :
    ∃ err, decodeEvaluation j = .error err := by
  cases hres : decodeEvaluation j with
  | error err => exact ⟨err, rfl⟩
  | ok e =>
    cases j with
    | obj fs =>
      obtain ⟨evfs, heqev, -, heqm, ⟨uj, hequ, hu⟩, -, -⟩ := decodeEvaluation_ok_inv hres
      rcases hbad fs rfl with hb | hb | hb
      · simp [fieldHasShape, heqev, Json.isObj] at hb
      · simp [fieldHasShape, heqm, Json.isStr] at hb
      · simp only [fieldHasShape, hequ] at hb
        rw [decodeUsage_ok_isObj hu] at hb
        exact Bool.noConfusion hb
    | null => exact Except.noConfusion hres
    | bool b => exact Except.noConfusion hres
    | num n => exact Except.noConfusion hres
    | str s => exact Except.noConfusion hres
    | arr xs => exact Except.noConfusion hres

/-- Witness for C1: the empty object (all required fields, `model`
included, missing) fails to decode. -/
theorem required_field_failure_witness :
    ∃ err, decodeEvaluation (.obj []) = .error err :=
  required_field_failure (.obj [])
    (fun fs hfs => by cases hfs; exact Or.inl rfl)

/-- A JSON value passing `entryOk` decodes as an `Evaluations` entry. -/
theorem decodeEvaluations_ok_of_entryOk {v : Json} (h : entryOk v = true) :
    ∃ ev, decodeEvaluations v = .ok ev := by
  cases v with
  | obj fs =>
    simp only [entryOk, Bool.and_eq_true, Option.isSome_iff_exists] at h
    obtain ⟨⟨cj, hcj⟩, hsc⟩ := h
    split at hsc
    · rename_i n heq
      exact ⟨⟨decodeCritique cj, n⟩, by simp [decodeEvaluations, hcj, heq]⟩
    · exact Bool.noConfusion hsc
  | null => simp [entryOk] at h
  | bool b => simp [entryOk] at h
  | num n => simp [entryOk] at h
  | str s => simp [entryOk] at h
  | arr xs => simp [entryOk] at h

/-- A list of valid entries decodes as the `evaluations` map. -/
theorem decodeEntries_ok_of_all {evfs : List (String × Json)}
    (h : evfs.all (fun p => entryOk p.2) = true) :
    ∃ l, decodeEntries evfs = .ok l := by
  induction evfs with
  | nil => exact ⟨[], rfl⟩
  | cons p rest ih =>
    simp only [List.all_cons, Bool.and_eq_true] at h
    obtain ⟨ev, hev⟩ := decodeEvaluations_ok_of_entryOk h.1
    obtain ⟨tail, htail⟩ := ih h.2
    obtain ⟨k, v⟩ := p
    exact ⟨(k, ev) :: tail, by simp [decodeEntries, hev, htail]⟩

/-- A JSON value passing `usageOk` decodes as a `Usage`. -/
theorem decodeUsage_ok_of_usageOk {u : Json} (h : usageOk u = true) :
    ∃ w, decodeUsage u = .ok w := by
  cases u with
  | obj fs =>
    simp only [usageOk, Bool.and_eq_true] at h
    obtain ⟨⟨h1, h2⟩, h3⟩ := h
    split at h1 <;> try exact Bool.noConfusion h1
    rename_i e1 heq1
    split at h2 <;> try exact Bool.noConfusion h2
    rename_i e2 heq2
    split at h3 <;> try exact Bool.noConfusion h3
    rename_i e3 heq3
    exact ⟨⟨e1, e2, e3⟩, by simp [decodeUsage, heq1, heq2, heq3]⟩
  | null => simp [usageOk] at h
  | bool b => simp [usageOk] at h
  | num n => simp [usageOk] at h
  | str s => simp [usageOk] at h
  | arr xs => simp [usageOk] at h

/-- C4: When the optional fields `id` and `created` are omitted from an
otherwise-valid payload, decoding succeeds and both come out as `none`. -/
theorem optional_fields_default (fs : List (String × Json))
    (hreq : requiredOk fs = true)
    (hid : lookupField fs "id" = none)
    (hcr : lookupField fs "created" = none) :
    ∃ e, decodeEvaluation (.obj fs) = .ok e ∧ e.id = none ∧ e.created = none := by
  simp only [requiredOk, Bool.and_eq_true] at hreq
  obtain ⟨⟨hev, hm⟩, hu⟩ := hreq
  split at hev <;> try exact Bool.noConfusion hev
  rename_i evfs heqev
  split at hm <;> try exact Bool.noConfusion hm
  rename_i m heqm
  split at hu <;> try exact Bool.noConfusion hu
  rename_i uj hequ
  obtain ⟨evs, hevs⟩ := decodeEntries_ok_of_all hev
  obtain ⟨w, hw⟩ := decodeUsage_ok_of_usageOk hu
  refine ⟨⟨evs, m, w, none, none⟩, ?_, rfl, rfl⟩
  simp [decodeEvaluation, heqev, hevs, heqm, hequ, hw, hid, hcr, decodeOptStr, decodeOptInt]

/-- Witness for C4 at the example payload (which has no `id`/`created`). -/
theorem optional_fields_default_witness :
    ∃ e, decodeEvaluation (.obj exampleFields) = .ok e ∧
      e.id = none ∧ e.created = none :=
  optional_fields_default exampleFields rfl rfl rfl

/-- C10: A payload whose `evaluations` field is the empty object decodes
successfully, with an empty `evaluations` map; no metric key is required. -/
theorem empty_evaluations_map (fs : List (String × Json))
    (hev : lookupField fs "evaluations" = some (.obj []))
    (hm : ∃ s, lookupField fs "model" = some (.str s))
    (hu : ∃ uj, lookupField fs "usage" = some uj ∧ usageOk uj = true)
    (hid : ∃ o, decodeOptStr "id" (lookupField fs "id") = .ok o)
    (hcr : ∃ o, decodeOptInt "created" (lookupField fs "created") = .ok o) :
    ∃ e, decodeEvaluation (.obj fs) = .ok e ∧ e.evaluations = [] := by
  obtain ⟨m, hm⟩ := hm
  obtain ⟨uj, hequ, huok⟩ := hu
  obtain ⟨oid, hid⟩ := hid
  obtain ⟨ocr, hcr⟩ := hcr
  obtain ⟨w, hw⟩ := decodeUsage_ok_of_usageOk huok
  exact ⟨⟨[], m, w, oid, ocr⟩,
    by simp [decodeEvaluation, hev, hm, hequ, hw, hid, hcr, decodeEntries], rfl⟩

/-- Witness for C10 at a minimal payload with an empty `evaluations`. -/
theorem empty_evaluations_map_witness :
    ∃ e, decodeEvaluation (.obj
      [("evaluations", .obj []), ("model", .str "m"),
       ("usage", .obj [("evaluation_tokens", .num 1), ("prompt_tokens", .num 2),
                       ("total_tokens", .num 3)])]) = .ok e ∧
      e.evaluations = [] :=
  empty_evaluations_map _ rfl ⟨"m", rfl⟩
    ⟨.obj [("evaluation_tokens", .num 1), ("prompt_tokens", .num 2),
           ("total_tokens", .num 3)], rfl, rfl⟩
    ⟨none, rfl⟩ ⟨none, rfl⟩

/-- The decoder only inspects the five declared field names. -/
theorem decodeEvaluation_fields_congr (fs fs' : List (String × Json))
    (h1 : lookupField fs' "evaluations" = lookupField fs "evaluations")
    (h2 : lookupField fs' "model" = lookupField fs "model")
    (h3 : lookupField fs' "usage" = lookupField fs "usage")
    (h4 : lookupField fs' "id" = lookupField fs "id")
    (h5 : lookupField fs' "created" = lookupField fs "created") :
    decodeEvaluation (.obj fs') = decodeEvaluation (.obj fs) := by
  simp only [decodeEvaluation, h1, h2, h3, h4, h5]

/-- C5: Extending an otherwise-valid payload with an unknown extra field
does not cause an error and leaves every known field of the result
unchanged. -/
theorem unknown_extra_field_ignored (fs : List (String × Json)) (k : String) (v : Json)
    (e : Evaluation) (hk : knownKey k = false)
    (hok : decodeEvaluation (.obj fs) = .ok e) :
    decodeEvaluation (.obj (fs ++ [(k, v)])) = .ok e := by
  simp only [knownKey, Bool.or_eq_false_iff] at hk
  obtain ⟨⟨⟨⟨hk1, hk2⟩, hk3⟩, hk4⟩, hk5⟩ := hk
  rw [decodeEvaluation_fields_congr fs (fs ++ [(k, v)])
    (lookupField_append_ne fs k v _ hk1) (lookupField_append_ne fs k v _ hk2)
    (lookupField_append_ne fs k v _ hk3) (lookupField_append_ne fs k v _ hk4)
    (lookupField_append_ne fs k v _ hk5)]
  exact hok

/-- Witness for C5: adding `"foo": 1` to the example payload changes
nothing. -/
theorem unknown_extra_field_ignored_witness :
    decodeEvaluation (.obj (exampleFields ++ [("foo", .num 1)])) =
      .ok exampleEvaluation :=
  unknown_extra_field_ignored exampleFields "foo" (.num 1) exampleEvaluation rfl rfl

/-- Re-wrapping the integers of an all-numeric array restores it. -/
theorem map_num_toIntD {xs : List Json} (h : xs.all Json.isNum = true) :
    (xs.map Json.toIntD).map Json.num = xs := by
  induction xs with
  | nil => rfl
  | cons x rest ih =>
    simp only [List.all_cons, Bool.and_eq_true] at h
    obtain ⟨n, rfl⟩ := isNum_exists h.1
    simp [Json.toIntD, ih h.2]

/-- Re-wrapping the strings of an all-string array restores it. -/
theorem map_str_toStrD {xs : List Json} (h : xs.all Json.isStr = true) :
    (xs.map Json.toStrD).map Json.str = xs := by
  induction xs with
  | nil => rfl
  | cons x rest ih =>
    simp only [List.all_cons, Bool.and_eq_true] at h
    obtain ⟨s, rfl⟩ := isStr_exists h.1
    simp [Json.toStrD, ih h.2]

/-- Re-encoding a decoded critique restores the original JSON value. -/
theorem encode_decodeCritique (j : Json) :
    encodeCritique (decodeCritique j) = j := by
  cases j with
  | arr xs =>
    by_cases h1 : xs.all Json.isNum = true
    · simp [decodeCritique, h1, encodeCritique, map_num_toIntD h1]
    · by_cases h2 : xs.all Json.isStr = true
      · simp [decodeCritique, h1, h2, encodeCritique, map_str_toStrD h2]
      · simp [decodeCritique, h1, h2, encodeCritique]
  | null => rfl
  | bool b => rfl
  | num n => rfl
  | str s => rfl
  | obj fs => rfl

/-- Decoding the encoding of an `Evaluations` value, componentwise. -/
theorem decodeEvaluations_encode (c : Critique) (n : Int) :
    decodeEvaluations (encodeEvaluations ⟨c, n⟩) =
      .ok ⟨decodeCritique (encodeCritique c), n⟩ := rfl

/-- A decoded `Evaluations` value survives an encode/decode round trip. -/
theorem decodeEvaluations_roundtrip {v : Json} {ev : Evaluations}
    (h : decodeEvaluations v = .ok ev) :
    decodeEvaluations (encodeEvaluations ev) = .ok ev := by
  cases v with
  | obj fs =>
    simp only [decodeEvaluations] at h
    split at h <;> try exact Except.noConfusion h
    rename_i cj hcj
    split at h <;> try exact Except.noConfusion h
    rename_i n hn
    cases h
    rw [decodeEvaluations_encode, encode_decodeCritique]
  | null => exact Except.noConfusion h
  | bool b => exact Except.noConfusion h
  | num n => exact Except.noConfusion h
  | str s => exact Except.noConfusion h
  | arr xs => exact Except.noConfusion h

/-- A decoded `evaluations` map survives an encode/decode round trip. -/
theorem decodeEntries_roundtrip {evfs : List (String × Json)}
    {l : List (String × Evaluations)} (h : decodeEntries evfs = .ok l) :
    decodeEntries (l.map (fun p => (p.1, encodeEvaluations p.2))) = .ok l := by
  induction evfs generalizing l with
  | nil =>
    cases h
    rfl
  | cons p rest ih =>
    obtain ⟨k, v⟩ := p
    simp only [decodeEntries] at h
    split at h <;> try exact Except.noConfusion h
    rename_i ev hev
    split at h <;> try exact Except.noConfusion h
    rename_i tail htail
    cases h
    simp [decodeEntries, decodeEvaluations_roundtrip hev, ih htail]

/-- Decoding the encoding of a `Usage` value is the identity. -/
theorem decodeUsage_encode (u : Usage) : decodeUsage (encodeUsage u) = .ok u := rfl

/-- Decoding the encoding of an `Evaluation` succeeds once its entries
round-trip. -/
theorem decodeEvaluation_encode (evs : List (String × Evaluations))
    (m : String) (u : Usage) (oid : Option String) (ocr : Option Int)
    (h : decodeEntries (evs.map (fun p => (p.1, encodeEvaluations p.2))) = .ok evs) :
    decodeEvaluation (encodeEvaluation ⟨evs, m, u, oid, ocr⟩) =
      .ok ⟨evs, m, u, oid, ocr⟩ := by
  cases oid <;> cases ocr <;>
    simp [decodeEvaluation, encodeEvaluation, lookupField, List.find?, h,
      decodeOptStr, decodeOptInt, decodeUsage, encodeUsage]

/-- C3: Decoding a valid payload and re-encoding the result yields a JSON
object carrying every known field with its decoded value: decoding it
again restores the `Evaluation` exactly. -/
theorem decode_encode_roundtrip (j : Json) (e : Evaluation)
    (h : decodeEvaluation j = .ok e) :
    decodeEvaluation (encodeEvaluation e) = .ok e := by
  cases j with
  | obj fs =>
    obtain ⟨evs, m, u, oid, ocr⟩ := e
    obtain ⟨evfs, -, hent, -, -, -, -⟩ := decodeEvaluation_ok_inv h
    exact decodeEvaluation_encode evs m u oid ocr (decodeEntries_roundtrip hent)
  | null => exact Except.noConfusion h
  | bool b => exact Except.noConfusion h
  | num n => exact Except.noConfusion h
  | str s => exact Except.noConfusion h
  | arr xs => exact Except.noConfusion h

/-- Witness for C3 at the example payload. -/
theorem decode_encode_roundtrip_witness :
    decodeEvaluation (encodeEvaluation exampleEvaluation) = .ok exampleEvaluation :=
  decode_encode_roundtrip examplePayload exampleEvaluation rfl

end Battery
